import Mathlib

/-!
Verification of the analysis core of the chess-analyzer repository.

The embedded code is `analyze_pgn_file` from src/backend/app.py
(lines 133-176) together with the engine configuration from
src/config/config.py.  Engine evaluations are modelled as `Option Int`:
`none` is the Python value None (engine returned no score), `some v` is a
returned centipawn score `v`.  Python truthiness makes both None and 0
falsy, which the embedding keeps explicit in `truthy`.
-/

/-- Python truthiness of an optional integer: None and 0 are falsy. -/
def truthy : Option Int → Bool
  | none => false
  | some v => v != 0

/-- Line 158 of app.py:
`centipawn_loss = max(0, eval_before - (-eval_after)) if eval_before and eval_after else 0`. -/
def centipawn_loss (eval_before eval_after : Option Int) : Int :=
  if truthy eval_before && truthy eval_after then
    max 0 (eval_before.getD 0 - (-(eval_after.getD 0)))
  else 0

/-- Line 163 of app.py: the stored field `eval_before or 0`. -/
def storedEvalBefore (eval_before : Option Int) : Int :=
  if truthy eval_before then eval_before.getD 0 else 0

/-- Line 164 of app.py: the stored field `-eval_after if eval_after else 0`. -/
def storedEvalAfter (eval_after : Option Int) : Int :=
  if truthy eval_after then -(eval_after.getD 0) else 0

/-- One record of the analysis list (app.py lines 160-166). -/
structure MoveAnalysis where
  move_number : Nat
  move : String
  eval_before : Int
  eval_after : Int
  centipawn_loss : Int
deriving Repr, DecidableEq

/-- The dict appended for one move (app.py lines 160-166). -/
def mkEntry (move_number : Nat) (move : String) (eval_before eval_after : Option Int) :
    MoveAnalysis :=
  { move_number := move_number
    move := move
    eval_before := storedEvalBefore eval_before
    eval_after := storedEvalAfter eval_after
    centipawn_loss := centipawn_loss eval_before eval_after }

/-- Outcome of one `engine.analyse` call: `Except.error` is a raised engine
exception, `Except.ok` carries the score that
`info["score"].relative.score(mate_score=10000)` produced (`none` when no
score is available). -/
abbrev EvalCall := Except String (Option Int)

/-- Whether an engine call returned without raising. -/
def isOkE : EvalCall → Bool
  | .ok _ => true
  | .error _ => false

/-- The loop of app.py lines 148-166: `i` is the zero-based index of the
next move, `c` the index of the next `engine.analyse` call (two calls per
move, in order).  A raised engine exception aborts the loop and propagates
to the handler; there is no retry. -/
def runMovesAux (moves : List String) (i c : Nat) (evals : Nat → EvalCall) :
    Except String (List MoveAnalysis) :=
  match moves with
  | [] => .ok []
  | m :: rest =>
    match evals c with
    | .error e => .error e
    | .ok eb =>
      match evals (c + 1) with
      | .error e => .error e
      | .ok ea =>
        match runMovesAux rest (i + 1) (c + 2) evals with
        | .error e => .error e
        | .ok tail => .ok (mkEntry (i + 1) m eb ea :: tail)

/-- Return value of `analyze_pgn_file`: `noGame` is the bare `return None`
of line 140, `success` the analysis list of line 173, `errorDict` the
except-handler dict of line 176. -/
inductive AnalyzeOutcome where
  | noGame
  | success (entries : List MoveAnalysis)
  | errorDict (msg : String)
deriving Repr, DecidableEq

/-- Engine lifecycle events of one run. -/
inductive Event where
  | engineStart
  | evalCall (c : Nat)
  | engineStop
deriving Repr, DecidableEq

/-- The `engine.analyse` calls actually issued by the loop, in order; a call
that raises is still issued, and ends the loop. -/
def evalEvents (moves : List String) (c : Nat) (evals : Nat → EvalCall) : List Event :=
  match moves with
  | [] => []
  | _ :: rest =>
    match evals c with
    | .error _ => [.evalCall c]
    | .ok _ =>
      match evals (c + 1) with
      | .error _ => [.evalCall c, .evalCall (c + 1)]
      | .ok _ => .evalCall c :: .evalCall (c + 1) :: evalEvents rest (c + 2) evals

/-- `analyze_pgn_file` (app.py lines 133-176), instrumented with the engine
lifecycle events of its `with` block.  `readResult` models opening and
parsing the PGN (`error` = raised exception, `ok none` = no game parsed),
`startResult` models `popen_uci` on the hardcoded path, `writeResult`
models saving the JSON file after the `with` block, `evals` the successive
`engine.analyse` calls.  The `with` statement guarantees the engine is
stopped when the block is exited on any path, before the except handler
runs; the whole body sits in one try/except that turns any exception into
an error dict. -/
def analyzeTrace (readResult : Except String (Option (List String)))
    (startResult writeResult : Except String Unit)
    (evals : Nat → EvalCall) : List Event × AnalyzeOutcome :=
  match readResult with
  | .error e => ([], .errorDict e)
  | .ok none => ([], .noGame)
  | .ok (some moves) =>
    match startResult with
    | .error e => ([], .errorDict e)
    | .ok _ =>
      let tr := Event.engineStart :: (evalEvents moves 0 evals ++ [Event.engineStop])
      match runMovesAux moves 0 0 evals with
      | .error e => (tr, .errorDict e)
      | .ok entries =>
        match writeResult with
        | .error e => (tr, .errorDict e)
        | .ok _ => (tr, .success entries)

/-- The value `analyze_pgn_file` returns to its caller. -/
def analyze_pgn_file (readResult : Except String (Option (List String)))
    (startResult writeResult : Except String Unit)
    (evals : Nat → EvalCall) : AnalyzeOutcome :=
  (analyzeTrace readResult startResult writeResult evals).2

/-- The per-move entries carried by an outcome; an error dict and the bare
None carry none. -/
def outcomeEntries : AnalyzeOutcome → List MoveAnalysis
  | .success l => l
  | _ => []

/-- Modelled from the spec: an outcome is explained when it is a complete
result or a structured failure value carrying a reason; the bare empty
response None is neither. -/
def explainedOutcome : AnalyzeOutcome → Bool
  | .success _ => true
  | .errorDict _ => true
  | .noGame => false

/-- The primary stockfish path of Config.ENGINES (config.py line 22). -/
def stockfish_primary_path : String := "/opt/homebrew/bin/stockfish"

/-- The stockfish fallback path list of Config.ENGINES (config.py
lines 23-27). -/
def stockfish_fallback_paths : List String :=
  ["/usr/local/bin/stockfish", "/usr/bin/stockfish", "stockfish"]

/-- The engine path `analyze_pgn_file` actually uses: hardcoded at app.py
line 142; the configuration module is never imported there. -/
def engine_path : String := "/opt/homebrew/bin/stockfish"

/-- Engine startup as performed by app.py line 144: one single `popen_uci`
on `engine_path`.  `launches p` says whether executable path `p` would
launch and complete the handshake. -/
def startEngine (launches : String → Bool) : Except String Unit :=
  if launches engine_path then .ok ()
  else .error ("engine launch failed: " ++ engine_path)

/-- A launch environment in which only the first configured fallback path
is runnable. -/
def launchesOnlyFallback : String → Bool :=
  fun p => p == "/usr/local/bin/stockfish"

theorem centipawn_loss_nonneg (eb ea : Option Int) : 0 ≤ centipawn_loss eb ea := by
  unfold centipawn_loss
  split
  · exact le_max_left 0 _
  · exact le_refl 0

theorem runMovesAux_loss_nonneg (moves : List String) (i c : Nat)
    (evals : Nat → EvalCall) (entries : List MoveAnalysis)
    (h : runMovesAux moves i c evals = .ok entries) :
    ∀ e ∈ entries, 0 ≤ e.centipawn_loss := by
  induction moves generalizing i c entries with
  | nil =>
    unfold runMovesAux at h
    cases h
    intro e he
    cases he
  | cons m rest ih =>
    unfold runMovesAux at h
    cases hc : evals c with
    | error msg => rw [hc] at h; cases h
    | ok eb =>
      rw [hc] at h
      cases hc1 : evals (c + 1) with
      | error msg => rw [hc1] at h; cases h
      | ok ea =>
        rw [hc1] at h
        cases hr : runMovesAux rest (i + 1) (c + 2) evals with
        | error msg => rw [hr] at h; cases h
        | ok tail =>
          rw [hr] at h
          cases h
          intro e he
          cases he with
          | head => exact centipawn_loss_nonneg eb ea
          | tail _ htail => exact ih (i + 1) (c + 2) tail hr e htail

theorem runMovesAux_ok (moves : List String) (i c : Nat) (evals : Nat → EvalCall)
    (hok : ∀ j, j < 2 * moves.length → isOkE (evals (c + j)) = true) :
    ∃ entries, runMovesAux moves i c evals = .ok entries ∧
      entries.length = moves.length ∧
      ∀ k, ∀ hk : k < entries.length, (entries.get ⟨k, hk⟩).move_number = i + 1 + k := by
  induction moves generalizing i c with
  | nil =>
    exact ⟨[], rfl, rfl, fun k hk => absurd hk (Nat.not_lt_zero k)⟩
  | cons m rest ih =>
    have hlc : (m :: rest).length = rest.length + 1 := List.length_cons m rest
    have h0 : isOkE (evals c) = true := by
      have := hok 0 (by omega)
      simpa using this
    have h1 : isOkE (evals (c + 1)) = true := by
      have := hok 1 (by omega)
      simpa using this
    cases hc : evals c with
    | error msg => rw [hc] at h0; cases h0
    | ok eb =>
      cases hc1 : evals (c + 1) with
      | error msg => rw [hc1] at h1; cases h1
      | ok ea =>
        have hok2 : ∀ j, j < 2 * rest.length → isOkE (evals (c + 2 + j)) = true := by
          intro j hj
          have := hok (j + 2) (by omega)
          have harith : c + (j + 2) = c + 2 + j := by omega
          rw [harith] at this
          exact this
        obtain ⟨tail, htail, hlen, hnum⟩ := ih (i + 1) (c + 2) hok2
        refine ⟨mkEntry (i + 1) m eb ea :: tail, ?_, ?_, ?_⟩
        · unfold runMovesAux
          rw [hc, hc1, htail]
        · simp [hlen]
        · intro k hk
          cases k with
          | zero => simp [mkEntry]
          | succ k2 =>
            have hk2 : k2 < tail.length := by
              simp [List.length_cons] at hk
              omega
            have := hnum k2 hk2
            simp [List.get] at this ⊢
            rw [this]
            omega

theorem runMovesAux_error (moves : List String) (i c : Nat) (evals : Nat → EvalCall)
    (k : Nat) (msg : String)
    (hk : k < 2 * moves.length)
    (hok : ∀ j, j < k → isOkE (evals (c + j)) = true)
    (herr : evals (c + k) = .error msg) :
    runMovesAux moves i c evals = .error msg := by
  induction moves generalizing i c k with
  | nil => simp at hk
  | cons m rest ih =>
    match k with
    | 0 =>
      rw [Nat.add_zero] at herr
      unfold runMovesAux
      rw [herr]
    | 1 =>
      have h0 : isOkE (evals c) = true := by simpa using hok 0 (by omega)
      cases hc : evals c with
      | error m2 => rw [hc] at h0; cases h0
      | ok eb =>
        unfold runMovesAux
        rw [hc, herr]
    | j + 2 =>
      have h0 : isOkE (evals c) = true := by simpa using hok 0 (by omega)
      have h1 : isOkE (evals (c + 1)) = true := by simpa using hok 1 (by omega)
      cases hc : evals c with
      | error m2 => rw [hc] at h0; cases h0
      | ok eb =>
        cases hc1 : evals (c + 1) with
        | error m2 => rw [hc1] at h1; cases h1
        | ok ea =>
          have hk2 : j < 2 * rest.length := by
            simp [List.length_cons] at hk
            omega
          have hok2 : ∀ j2, j2 < j → isOkE (evals (c + 2 + j2)) = true := by
            intro j2 hj2
            have := hok (j2 + 2) (by omega)
            have harith : c + (j2 + 2) = c + 2 + j2 := by omega
            rw [harith] at this
            exact this
          have herr2 : evals (c + 2 + j) = .error msg := by
            have harith : c + (j + 2) = c + 2 + j := by omega
            rw [harith] at herr
            exact herr
          have hrec := ih (i + 1) (c + 2) j hk2 hok2 herr2
          unfold runMovesAux
          rw [hc, hc1, hrec]

/-- C1: the claim states the loss formula for every move with both raw
evaluations available; the code additionally requires both to be nonzero
(Python truthiness), so the claim fails at an available evaluation of 0.
This is the counterexample: evalBefore = 0 and evalAfter = 30 are both
available scores, the claimed formula gives 30, the code computes 0. -/
theorem C1_counterexample :
    centipawn_loss (some 0) (some 30) ≠ max 0 ((0 : Int) - (-30)) := by decide

/-- C1 amended: for every move whose two raw evaluations are available and
nonzero, the computed centipawn loss equals max(0, evalBefore -
(-evalAfter)). -/
theorem C1_loss_formula (eb ea : Int) (hb : eb ≠ 0) (ha : ea ≠ 0) :
    centipawn_loss (some eb) (some ea) = max 0 (eb - (-ea)) := by
  have hb2 : (eb != 0) = true := by simpa using hb
  have ha2 : (ea != 0) = true := by simpa using ha
  simp [centipawn_loss, truthy, hb2, ha2]

/-- C1 witness: evalBefore = 50, raw evalAfter = -30 yields loss 20. -/
theorem C1_witness :
    centipawn_loss (some 50) (some (-30)) = max 0 ((50 : Int) - (-(-30))) ∧
    centipawn_loss (some 50) (some (-30)) = 20 :=
  ⟨C1_loss_formula 50 (-30) (by decide) (by decide), by decide⟩

/-- C2: every entry appended to the analysis result has centipawn_loss ≥ 0;
in particular evalBefore = 10 with raw evalAfter = -40 yields loss 0. -/
theorem C2_loss_invariant (moves : List String) (i c : Nat)
    (evals : Nat → EvalCall) (entries : List MoveAnalysis)
    (h : runMovesAux moves i c evals = .ok entries)
    (e : MoveAnalysis) (he : e ∈ entries) :
    0 ≤ e.centipawn_loss ∧ centipawn_loss (some 10) (some (-40)) = 0 :=
  ⟨runMovesAux_loss_nonneg moves i c evals entries h e he, by decide⟩

/-- C2 witness: a single-move run with evalBefore = 10 and raw
evalAfter = -40 produces an entry and its loss is 0. -/
theorem C2_witness :
    0 ≤ (mkEntry 1 "e2e4" (some 10) (some (-40))).centipawn_loss ∧
    centipawn_loss (some 10) (some (-40)) = 0 :=
  C2_loss_invariant ["e2e4"] 0 0
    (fun c => if c = 0 then .ok (some 10) else .ok (some (-40)))
    [mkEntry 1 "e2e4" (some 10) (some (-40))] rfl
    (mkEntry 1 "e2e4" (some 10) (some (-40))) (List.mem_singleton.mpr rfl)

/-- C3: the claim states that an engine fault on a move is retried and a
second failure yields a partial result keeping the entries of the earlier
moves.  The code has no retry and no partial result: here ten moves with
both evaluation calls of move 5 faulting (the fault is hit on the first of
them, call index 8) return the bare error dict, carrying none of the four
completed entries instead of exactly those four. -/
theorem C3_counterexample :
    analyze_pgn_file
        (.ok (some ["m1", "m2", "m3", "m4", "m5", "m6", "m7", "m8", "m9", "m10"]))
        (.ok ()) (.ok ())
        (fun c => if c < 8 then .ok (some 10) else .error "engine fault")
      = .errorDict "engine fault" ∧
    outcomeEntries
        (analyze_pgn_file
          (.ok (some ["m1", "m2", "m3", "m4", "m5", "m6", "m7", "m8", "m9", "m10"]))
          (.ok ()) (.ok ())
          (fun c => if c < 8 then .ok (some 10) else .error "engine fault"))
      = [] := by
  constructor <;> rfl

/-- C3 amended: if an engine fault occurs while evaluating a move, no retry
is attempted: the pipeline aborts at once and returns a structured error
value carrying the fault message, discarding every already-completed
entry (the returned outcome carries no entries at all). -/
theorem C3_fault_aborts (moves : List String) (wr : Except String Unit)
    (evals : Nat → EvalCall) (k : Nat) (msg : String)
    (hk : k < 2 * moves.length)
    (hok : ∀ j, j < k → isOkE (evals j) = true)
    (herr : evals k = .error msg) :
    analyze_pgn_file (.ok (some moves)) (.ok ()) wr evals = .errorDict msg ∧
    outcomeEntries (analyze_pgn_file (.ok (some moves)) (.ok ()) wr evals) = [] := by
  have hok0 : ∀ j, j < k → isOkE (evals (0 + j)) = true := by
    intro j hj
    rw [Nat.zero_add]
    exact hok j hj
  have herr0 : evals (0 + k) = .error msg := by rw [Nat.zero_add]; exact herr
  have hrun := runMovesAux_error moves 0 0 evals k msg hk hok0 herr0
  have hout : analyze_pgn_file (.ok (some moves)) (.ok ()) wr evals = .errorDict msg := by
    simp [analyze_pgn_file, analyzeTrace, hrun]
  exact ⟨hout, by rw [hout]; rfl⟩

/-- C3 witness: the concrete ten-move run with a fault on move 5 aborts
with the structured error value and no entries. -/
theorem C3_witness :
    analyze_pgn_file
        (.ok (some ["m1", "m2", "m3", "m4", "m5", "m6", "m7", "m8", "m9", "m10"]))
        (.ok ()) (.ok ())
        (fun c => if c < 8 then .ok (some 10) else .error "boom")
      = .errorDict "boom" ∧
    outcomeEntries
        (analyze_pgn_file
          (.ok (some ["m1", "m2", "m3", "m4", "m5", "m6", "m7", "m8", "m9", "m10"]))
          (.ok ()) (.ok ())
          (fun c => if c < 8 then .ok (some 10) else .error "boom"))
      = [] :=
  C3_fault_aborts ["m1", "m2", "m3", "m4", "m5", "m6", "m7", "m8", "m9", "m10"]
    (.ok ()) (fun c => if c < 8 then .ok (some 10) else .error "boom")
    8 "boom" (by decide) (by decide) rfl

/-- C4: a game with N moves analyzed without any engine fault produces the
success outcome with exactly N entries, and the k-th entry (zero-based k)
has move number k + 1: move indices are 1, 2, ..., N with no gaps. -/
theorem C4_complete_run (moves : List String) (evals : Nat → EvalCall)
    (hok : ∀ j, j < 2 * moves.length → isOkE (evals j) = true) :
    ∃ entries,
      analyze_pgn_file (.ok (some moves)) (.ok ()) (.ok ()) evals = .success entries ∧
      entries.length = moves.length ∧
      ∀ k, ∀ hk : k < entries.length, (entries.get ⟨k, hk⟩).move_number = k + 1 := by
  have hok0 : ∀ j, j < 2 * moves.length → isOkE (evals (0 + j)) = true := by
    intro j hj
    rw [Nat.zero_add]
    exact hok j hj
  obtain ⟨entries, hrun, hlen, hnum⟩ := runMovesAux_ok moves 0 0 evals hok0
  refine ⟨entries, ?_, hlen, ?_⟩
  · simp [analyze_pgn_file, analyzeTrace, hrun]
  · intro k hk
    have := hnum k hk
    omega

/-- C4 witness: a fault-free three-move game yields success with three
entries numbered 1, 2, 3. -/
theorem C4_witness :
    ∃ entries,
      analyze_pgn_file (.ok (some ["a", "b", "c"])) (.ok ()) (.ok ())
          (fun _ => .ok (some 7)) = .success entries ∧
      entries.length = (["a", "b", "c"] : List String).length ∧
      ∀ k, ∀ hk : k < entries.length, (entries.get ⟨k, hk⟩).move_number = k + 1 :=
  C4_complete_run ["a", "b", "c"] (fun _ => .ok (some 7)) (by decide)

/-- C5: a missing raw evaluation (None) on either side of a move yields
centipawn_loss 0 for the entry, and the affected stored eval field is 0;
the computation is total and never fails the move. -/
theorem C5_missing_eval (n : Nat) (m : String) (eb ea : Option Int) :
    (mkEntry n m none ea).centipawn_loss = 0 ∧
    (mkEntry n m eb none).centipawn_loss = 0 ∧
    (mkEntry n m none ea).eval_before = 0 ∧
    (mkEntry n m eb none).eval_after = 0 := by
  refine ⟨?_, ?_, ?_, ?_⟩ <;>
    simp [mkEntry, centipawn_loss, storedEvalBefore, storedEvalAfter, truthy]

/-- C6: every evaluation stored in a MoveAnalysis entry is from the mover
perspective: an available eval_before score v is stored as v, and an
available raw eval_after score v (opponent perspective) is stored with its
sign flipped, as -v. -/
theorem C6_mover_perspective (n : Nat) (m : String) (v : Int) (eb ea : Option Int) :
    (mkEntry n m (some v) ea).eval_before = v ∧
    (mkEntry n m eb (some v)).eval_after = -v := by
  constructor <;>
  · by_cases hv : v = 0 <;>
      simp [mkEntry, storedEvalBefore, storedEvalAfter, truthy, hv]

theorem evalEvents_is_evalCall (moves : List String) (c : Nat) (evals : Nat → EvalCall) :
    ∀ e ∈ evalEvents moves c evals, ∃ k, e = Event.evalCall k := by
  induction moves generalizing c with
  | nil =>
    intro e he
    unfold evalEvents at he
    cases he
  | cons m rest ih =>
    intro e he
    unfold evalEvents at he
    cases hc : evals c with
    | error msg =>
      rw [hc] at he
      simp at he
      exact ⟨c, he⟩
    | ok eb =>
      rw [hc] at he
      cases hc1 : evals (c + 1) with
      | error msg =>
        rw [hc1] at he
        simp at he
        rcases he with he | he
        · exact ⟨c, he⟩
        · exact ⟨c + 1, he⟩
      | ok ea =>
        rw [hc1] at he
        simp at he
        rcases he with he | he | he
        · exact ⟨c, he⟩
        · exact ⟨c + 1, he⟩
        · exact ih (c + 2) e he

theorem evalEvents_count_start (moves : List String) (c : Nat) (evals : Nat → EvalCall) :
    (evalEvents moves c evals).count Event.engineStart = 0 := by
  rw [List.count_eq_zero]
  intro hmem
  obtain ⟨k, hk⟩ := evalEvents_is_evalCall moves c evals _ hmem
  exact Event.noConfusion hk

theorem evalEvents_count_stop (moves : List String) (c : Nat) (evals : Nat → EvalCall) :
    (evalEvents moves c evals).count Event.engineStop = 0 := by
  rw [List.count_eq_zero]
  intro hmem
  obtain ⟨k, hk⟩ := evalEvents_is_evalCall moves c evals _ hmem
  exact Event.noConfusion hk

theorem analyzeTrace_trace_eq (moves : List String) (wr : Except String Unit)
    (evals : Nat → EvalCall) :
    (analyzeTrace (.ok (some moves)) (.ok ()) wr evals).1
      = Event.engineStart :: (evalEvents moves 0 evals ++ [Event.engineStop]) := by
  cases hr : runMovesAux moves 0 0 evals <;> cases wr <;> simp [analyzeTrace, hr]

theorem getLast_append_singleton (l : List Event) (a : Event) :
    (l ++ [a]).getLast? = some a := by
  rw [List.getLast?_append_cons]
  rfl

/-- C8: on every run in which a game is present and the engine launches,
the engine session is started exactly once, before any evaluation, and
stopped exactly once, at the very end of the trace, whatever the exit path
(success, engine fault, or a failure after the engine block); and on every
run whatsoever, the number of stops equals the number of starts, so no
engine process is ever left running. -/
theorem C8_session_lifecycle (moves : List String) (wr : Except String Unit)
    (evals : Nat → EvalCall)
    (rd : Except String (Option (List String))) (st : Except String Unit) :
    ((analyzeTrace (.ok (some moves)) (.ok ()) wr evals).1.count Event.engineStart = 1 ∧
     (analyzeTrace (.ok (some moves)) (.ok ()) wr evals).1.count Event.engineStop = 1 ∧
     (analyzeTrace (.ok (some moves)) (.ok ()) wr evals).1.head? = some Event.engineStart ∧
     (analyzeTrace (.ok (some moves)) (.ok ()) wr evals).1.getLast? = some Event.engineStop) ∧
    (analyzeTrace rd st wr evals).1.count Event.engineStop
      = (analyzeTrace rd st wr evals).1.count Event.engineStart := by
  have hmain : ∀ ms2 : List String, ∀ wr2 : Except String Unit,
      (analyzeTrace (.ok (some ms2)) (.ok ()) wr2 evals).1.count Event.engineStart = 1 ∧
      (analyzeTrace (.ok (some ms2)) (.ok ()) wr2 evals).1.count Event.engineStop = 1 ∧
      (analyzeTrace (.ok (some ms2)) (.ok ()) wr2 evals).1.head? = some Event.engineStart ∧
      (analyzeTrace (.ok (some ms2)) (.ok ()) wr2 evals).1.getLast?
        = some Event.engineStop := by
    intro ms2 wr2
    rw [analyzeTrace_trace_eq ms2 wr2 evals]
    refine ⟨?_, ?_, rfl, ?_⟩
    · simp [List.count_cons, List.count_append, evalEvents_count_start]
    · simp [List.count_cons, List.count_append, evalEvents_count_stop]
    · rw [← List.cons_append]
      exact getLast_append_singleton _ _
  refine ⟨hmain moves wr, ?_⟩
  cases rd with
  | error e => rfl
  | ok og =>
    cases og with
    | none => rfl
    | some ms =>
      cases st with
      | error e => rfl
      | ok u =>
        cases u
        obtain ⟨h1, h2, _, _⟩ := hmain ms wr
        rw [h1, h2]

/-- C7: the claim states that startup tries the primary path, then each
configured fallback path in order, succeeding on the first that launches.
Counterexample: in an environment where the primary path does not launch
but the first configured fallback does, the code still fails, because line
142 of app.py hardcodes the primary path and never consults the fallback
list (the configuration module is not even imported). -/
theorem C7_counterexample :
    "/usr/local/bin/stockfish" ∈ stockfish_fallback_paths ∧
    launchesOnlyFallback "/usr/local/bin/stockfish" = true ∧
    startEngine launchesOnlyFallback ≠ .ok () := by
  refine ⟨by decide, by decide, ?_⟩
  intro h
  rw [show startEngine launchesOnlyFallback
        = Except.error ("engine launch failed: " ++ engine_path) from rfl] at h
  exact Except.noConfusion h

/-- C7 amended: startup attempts only the single hardcoded primary path:
it succeeds exactly when that path launches and completes the handshake,
and its result never depends on any other path (in particular the
configured fallback paths are never consulted). -/
theorem C7_single_path (launches launches2 : String → Bool)
    (hsame : launches engine_path = launches2 engine_path) :
    (startEngine launches = .ok () ↔ launches engine_path = true) ∧
    startEngine launches = startEngine launches2 := by
  constructor
  · cases hl : launches engine_path <;> simp [startEngine, hl]
  · unfold startEngine
    rw [hsame]

/-- C7 witness: an environment where every path launches starts the engine,
and an environment launching only the primary path behaves the same. -/
theorem C7_witness :
    ((startEngine (fun _ => true) = .ok ()) ↔ ((fun _ => true) engine_path = true)) ∧
    startEngine (fun _ => true) = startEngine (fun p => p == engine_path) :=
  C7_single_path (fun _ => true) (fun p => p == engine_path) (by decide)

/-- C9: the claim states the caller never receives an unexplained empty
response.  Counterexample: when the PGN parses to no game, line 140 of
app.py returns the bare Python None, which is neither a result list nor a
structured error value. -/
theorem C9_counterexample :
    analyze_pgn_file (.ok none) (.ok ()) (.ok ()) (fun _ => .ok none) = .noGame ∧
    explainedOutcome
        (analyze_pgn_file (.ok none) (.ok ()) (.ok ()) (fun _ => .ok none)) = false :=
  ⟨rfl, rfl⟩

/-- C9 amended: unless the parsed file yields no game (in which case the
bare empty response None is returned), the caller always receives either
the complete analysis list or a structured error value carrying a message;
no partial entry list is ever returned, and no exception escapes. -/
theorem C9_explained_outcome (rd : Except String (Option (List String)))
    (st wr : Except String Unit) (evals : Nat → EvalCall)
    (h : rd ≠ .ok none) :
    explainedOutcome (analyze_pgn_file rd st wr evals) = true := by
  cases rd with
  | error e => rfl
  | ok og =>
    cases og with
    | none => exact absurd rfl h
    | some moves =>
      cases st with
      | error e => rfl
      | ok u =>
        cases u
        cases hr : runMovesAux moves 0 0 evals with
        | error e => simp [analyze_pgn_file, analyzeTrace, explainedOutcome, hr]
        | ok entries =>
          cases wr <;> simp [analyze_pgn_file, analyzeTrace, explainedOutcome, hr]

/-- C9 witness: a one-move game with a working engine gives an explained
outcome. -/
theorem C9_witness :
    explainedOutcome
        (analyze_pgn_file (.ok (some ["e2e4"])) (.ok ()) (.ok ())
          (fun _ => .ok (some 5))) = true :=
  C9_explained_outcome (.ok (some ["e2e4"])) (.ok ()) (.ok ())
    (fun _ => .ok (some 5)) (by simp)

/-- C10: a raw evaluation score of exactly 0 on either side of a move
yields centipawn_loss 0 regardless of the other evaluation, stores the
corresponding eval field as 0, and produces an entry literally identical
to the one produced when that evaluation is missing: a zero score is
indistinguishable from an unavailable score. -/
theorem C10_zero_is_missing (n : Nat) (m : String) (eb ea : Option Int) :
    (mkEntry n m (some 0) ea).centipawn_loss = 0 ∧
    (mkEntry n m eb (some 0)).centipawn_loss = 0 ∧
    (mkEntry n m (some 0) ea).eval_before = 0 ∧
    (mkEntry n m eb (some 0)).eval_after = 0 ∧
    mkEntry n m (some 0) ea = mkEntry n m none ea ∧
    mkEntry n m eb (some 0) = mkEntry n m eb none := by
  refine ⟨?_, ?_, ?_, ?_, ?_, ?_⟩ <;>
    simp [mkEntry, centipawn_loss, storedEvalBefore, storedEvalAfter, truthy]
